import Mathlib

/-!
Shallow embedding of `src/src/utils/ScriptHelpers.ts` from
classy-org/classy-lambda-common.

The file models:
* the argument-handling phase of `runScript` (stage parsing, AWS_PROFILE
  mutation, dryRun parsing, custom argument validation, Config construction);
* the two inline `DataSource` classes declared inside `runScript`
  (`ScriptEnvironment` and `LocalDBFactories`);
* the pipeline orchestration of `runPipes` (stage wiring, terminal-stage
  determination, the `called` single-settlement flag, setup/teardown ordering).

JavaScript values that flow through the code are modelled by `JSValue`;
asynchronous settlement races are modelled by explicit scheduling parameters
(`terminalFinishes`, `finishFirst`) and a signal list fed to the settlement
state machine that mirrors the `called` flag.
-/

namespace ClassyLambda

/-- A JavaScript value as it appears in this module: strings, booleans,
argument lists, `null`, `undefined`, and the mysql connection pool object
returned for the key `stayClassyDB`.  A pool carries the identity counter of
its creation (each `mysql.createPool` call yields a fresh object) together
with the user, password and port it was configured with. -/
inductive JSValue where
  | vStr (s : String)
  | vBool (b : Bool)
  | vList (xs : List String)
  | vNull
  | vUndefined
  | vPool (freshId : Nat) (user password : JSValue) (port : Option Nat)
  deriving Repr, DecidableEq

/-- The stage names accepted by `runScript`
(`_.includes(['int', 'staging', 'prod'], argStage)`). -/
def validStages : List String := ["int", "staging", "prod"]

/-- The `switch (stage)` that mutates `process.env['AWS_PROFILE']`:
`int` and `staging` map to `classy-test`, `prod` to `prod-pay`; the switch
has no default branch, modelled as `none`. -/
def awsProfileFor (stage : String) : Option String :=
  if stage = "int" ∨ stage = "staging" then some "classy-test"
  else if stage = "prod" then some "prod-pay"
  else none

/-- `if (!argStage)`: the stage option is falsy when absent or the empty
string. -/
def stageFalsy : Option String → Bool
  | none => true
  | some s => s = ""

/-- ASCII lowercasing of one character, as `_.toLower` behaves on the
ASCII command-line strings this module receives. -/
def lowerChar (c : Char) : Char :=
  if 'A' ≤ c ∧ c ≤ 'Z' then Char.ofNat (c.toNat + 32) else c

/-- `_.toLower` on an ASCII string. -/
def jsToLower (s : String) : String := ⟨s.data.map lowerChar⟩

/-- `const argDryRun = _.get(opt.options, 'dryRun', 'true'); let dryRun =
true; if (_.toLower(argDryRun) === 'false') dryRun = false;`. -/
def parseDryRun (dryRunOpt : Option String) : Bool :=
  if jsToLower (dryRunOpt.getD "true") = "false" then false else true

/-- JavaScript truthiness of the `string|undefined` returned by the argument
validator: `undefined` and the empty string are falsy. -/
def truthy : Option String → Bool
  | none => false
  | some s => !(s = "")

/-- Observable side effects of the argument phase of `runScript`, in
program order. -/
inductive ScriptEvent where
  | printUsage
  | setAwsProfile (profile : String)
  | callValidator
  | constructConfig
  | callScript
  deriving Repr, DecidableEq

/-- How the (synchronous part of the) `runScript` call ends: a plain
`return`, a thrown `Error`, or proceeding into the user script. -/
inductive ScriptResult where
  | returnedEarly
  | threw (msg : String)
  | ranScript (stage : String) (dryRun : Bool)
  deriving Repr, DecidableEq

/-- Trace and result of one `runScript` invocation's argument phase. -/
structure ScriptRun where
  trace : List ScriptEvent
  result : ScriptResult
  deriving Repr, DecidableEq

/-- The argument phase of `runScript`, following the source line by line:
falsy stage prints usage and returns; a stage outside
`['int','staging','prod']` throws `Invalid stage ...`; otherwise
`AWS_PROFILE` is set, `dryRun` parsed, the validator consulted (truthy
result prints usage and returns), and only then the `Config` is constructed
and the script function invoked. -/
def runScriptModel (stageOpt dryRunOpt : Option String) (argv : List String)
    (validator : List String → Bool → Option String) : ScriptRun :=
  if stageFalsy stageOpt then ⟨[.printUsage], .returnedEarly⟩
  else
    let argStage := stageOpt.getD ""
    if argStage ∈ validStages then
      let profileEvents : List ScriptEvent :=
        (awsProfileFor argStage).elim [] (fun p => [.setAwsProfile p])
      let dryRun := parseDryRun dryRunOpt
      if truthy (validator argv dryRun) then
        ⟨profileEvents ++ [.callValidator, .printUsage], .returnedEarly⟩
      else
        ⟨profileEvents ++ [.callValidator, .constructConfig, .callScript],
         .ranScript argStage dryRun⟩
    else ⟨[], .threw ("Invalid stage " ++ argStage)⟩

/-- The reserved keys that the `ScriptEnvironment` data source answers from
CLI-derived state before consulting the merged environment object. -/
def reservedKeys : List String := ["stage", "dryRun", "args", "dir"]

/-- `ScriptEnvironment`'s `get`: the switch returns the CLI-derived `stage`,
`dryRun`, `args` and `dir`; any other key falls through to
`_.get(this.environment, key, null)`, modelled on an association list (a
stored `undefined` also yields the `null` default, as in lodash). -/
def scriptEnvironmentGet (stage : String) (dryRun : Bool) (argv : List String)
    (dir : String) (environment : List (String × JSValue)) (key : String) :
    JSValue :=
  if key = "stage" then .vStr stage
  else if key = "dryRun" then .vBool dryRun
  else if key = "args" then .vList argv
  else if key = "dir" then .vStr dir
  else
    match environment.lookup key with
    | some v => if v = .vUndefined then .vNull else v
    | none => .vNull

/-- The private fields of the `LocalDBFactories` data source after
initialization. -/
structure LocalDBState where
  port : Option Nat
  user : JSValue
  password : JSValue
  deriving Repr, DecidableEq

/-- Ambient resource state: how many mysql connection pools have been
created so far (each `mysql.createPool` call makes a fresh pool object). -/
structure PoolWorld where
  poolsCreated : Nat
  deriving Repr, DecidableEq

/-- `LocalDBFactories`' `initialize`: a `switch` on `config.get('stage')`
chooses the port (`prod` → 9306, `staging` → 8306); any other stage leaves
the port undefined and throws `No port for stage ...`; on success the user
and password looked up from the config are stored. -/
def localDBInitDB (stage : String) (dbUser dbPassword : JSValue) :
    Except String LocalDBState :=
  let port : Option Nat :=
    if stage = "prod" then some 9306
    else if stage = "staging" then some 8306
    else none
  match port with
  | none => .error ("No port for stage " ++ stage)
  | some p => .ok ⟨some p, dbUser, dbPassword⟩

/-- `LocalDBFactories`' `get`: for the key `stayClassyDB` it calls
`mysql.createPool` — constructing a fresh pool object (fresh identity,
advancing the pool counter) configured with the stored user, password and
port; every other key returns `undefined`. -/
def localDBGet (st : LocalDBState) (w : PoolWorld) (key : String) :
    JSValue × PoolWorld :=
  if key = "stayClassyDB" then
    (.vPool w.poolsCreated st.user st.password st.port, ⟨w.poolsCreated + 1⟩)
  else (.vUndefined, w)

/-- A stream stage object, identified by a number (object identity is all
the wiring logic observes). -/
abbrev Stage := Nat

/-- A `Pipeline` as returned by the factory: optional `source`, optional
`transforms` array, optional `sink` (the TypeScript fields are all
optional; an absent `transforms` is normalised to `[]` inside `runPipes`). -/
structure Pipeline where
  source : Option Stage
  transforms : Option (List Stage)
  sink : Option Stage
  deriving Repr, DecidableEq

/-- Observable events of one `runPipes` run after the factory returned. -/
inductive RunEvent where
  | pipe (src dst : Stage)
  | watch (s : Stage)
  | resolveNow
  | setupCall
  | teardownCall
  deriving Repr, DecidableEq

/-- The `.pipe` calls made between consecutive elements of a stage list. -/
def chainPipes : List Stage → List RunEvent
  | a :: b :: rest => .pipe a b :: chainPipes (b :: rest)
  | _ => []

/-- The `.pipe` calls `runPipes` makes, following the source: the `for`
loop pipes the source into `transforms[0]` (when both exist) and each
transform into the next; then, if a sink exists, the last transform (or
else the source, when one exists) is piped into it. -/
def wireEvents (p : Pipeline) : List RunEvent :=
  let ts := p.transforms.getD []
  let headPipe : List RunEvent :=
    match ts, p.source with
    | t :: _, some s => [.pipe s t]
    | _, _ => []
  let sinkPipe : List RunEvent :=
    match p.sink, ts.getLast? with
    | some sk, some last => [.pipe last sk]
    | some sk, none =>
      match p.source with
      | some s => [.pipe s sk]
      | none => []
    | none, _ => []
  headPipe ++ chainPipes ts ++ sinkPipe

/-- `finalStream` as computed by the source: the last transform when any
transforms exist, then overwritten by the sink when a sink exists; the
source is never chosen. -/
def finalStream (p : Pipeline) : Option Stage :=
  match p.sink with
  | some sk => some sk
  | none => (p.transforms.getD []).getLast?

/-- Modelled from the spec's words, for comparison with `finalStream`:
"the sink if present, else the last transform, else the source, else no
terminal". -/
def specTerminal (p : Pipeline) : Option Stage :=
  match p.sink with
  | some sk => some sk
  | none =>
    match (p.transforms.getD []).getLast? with
    | some t => some t
    | none => p.source

/-- All stages present in the pipeline, in chain order
`[source, ...transforms, sink]` with absent ends skipped. -/
def presentStages (p : Pipeline) : List Stage :=
  p.source.toList ++ p.transforms.getD [] ++ p.sink.toList

/-- A settlement attempt arriving at the promise executor: a `resolve()`
(from the terminal's `finish` handler or the no-terminal branch) or a
`reject(e)` (from the `catch` block). Errors carry a numeric identity. -/
inductive Signal where
  | res
  | rej (e : Nat)
  deriving Repr, DecidableEq

/-- How the promise settled. -/
inductive Outcome where
  | resolved
  | rejected (e : Nat)
  deriving Repr, DecidableEq

/-- The state guarded by `let called = false`: the flag, the settlement (if
any), and how many times `resolve`/`reject` was actually invoked. -/
structure SettleState where
  called : Bool
  outcome : Option Outcome
  settledCount : Nat
  deriving Repr, DecidableEq

/-- One guarded settlement attempt: `if (!called) { called = true;
resolve_or_reject(...); }` — a signal arriving after the flag is set is
ignored. -/
def onSignal (st : SettleState) (s : Signal) : SettleState :=
  if st.called then st
  else
    match s with
    | .res => ⟨true, some .resolved, st.settledCount + 1⟩
    | .rej e => ⟨true, some (.rejected e), st.settledCount + 1⟩

/-- The settlement state before any signal. -/
def initialSettle : SettleState := ⟨false, none, 0⟩

/-- Processing a whole sequence of settlement attempts. -/
def settleAll (sigs : List Signal) : SettleState :=
  sigs.foldl onSignal initialSettle

/-- The sequence of settlement attempts a run produces, given how setup
ends and the schedule: with no terminal stage the executor resolves
immediately (a later setup error is a second, ignored attempt); with a
terminal stage the attempts are the terminal's `finish` (if it ever fires,
`terminalFinishes`) and the setup rejection (if setup fails), ordered by
which fires first (`finishFirst`). -/
def runSignals (p : Pipeline) (setupResult : Except Nat Unit)
    (terminalFinishes finishFirst : Bool) : List Signal :=
  match finalStream p with
  | none =>
    match setupResult with
    | .ok _ => [.res]
    | .error e => [.res, .rej e]
  | some _ =>
    match setupResult with
    | .ok _ => if terminalFinishes then [.res] else []
    | .error e =>
      if terminalFinishes && finishFirst then [.res, .rej e]
      else if terminalFinishes then [.rej e, .res]
      else [.rej e]

/-- The settled outcome of the run's promise (`none` = never settles). -/
def runOutcome (p : Pipeline) (setupResult : Except Nat Unit)
    (terminalFinishes finishFirst : Bool) : Option Outcome :=
  (settleAll (runSignals p setupResult terminalFinishes finishFirst)).outcome

/-- The events after wiring: watcher registration (or the immediate
resolve), the `setup` call, and — only when the awaited promise resolved —
the `teardown` call on the line after `await new Promise(...)`. -/
def tailEvents (p : Pipeline) (outcome : Option Outcome) : List RunEvent :=
  (match finalStream p with
   | some t => [RunEvent.watch t]
   | none => [RunEvent.resolveNow]) ++
  [RunEvent.setupCall] ++
  (match outcome with
   | some .resolved => [RunEvent.teardownCall]
   | _ => [])

deriving instance DecidableEq for Except

/-- Trace and result of one `runPipes` run (after the factory returned).
`result = none` means the inner script function never returns. -/
structure RunResult where
  trace : List RunEvent
  result : Option (Except Nat Unit)
  deriving Repr, DecidableEq

/-- The body of the script function `runPipes` passes to `runScript`,
after the factory call: wire the stages, register the completion watcher
(or resolve immediately), call setup, await settlement; on resolution run
teardown and return, on rejection propagate the error without running
teardown, and if the promise never settles, never return. -/
def runPipesModel (p : Pipeline) (setupResult : Except Nat Unit)
    (terminalFinishes finishFirst : Bool) : RunResult :=
  let outcome := runOutcome p setupResult terminalFinishes finishFirst
  { trace := wireEvents p ++ tailEvents p outcome,
    result :=
      match outcome with
      | some .resolved => some (.ok ())
      | some (.rejected e) => some (.error e)
      | none => none }

/-! ### Helper lemmas about the settlement machine -/

lemma onSignal_called_id (st : SettleState) (s : Signal) (h : st.called = true) :
    onSignal st s = st := by
  unfold onSignal
  rw [if_pos h]

lemma foldl_onSignal_called (l : List Signal) (st : SettleState)
    (h : st.called = true) : l.foldl onSignal st = st := by
  induction l with
  | nil => rfl
  | cons s rest ih =>
    rw [List.foldl_cons, onSignal_called_id st s h, ih]

lemma onSignal_initial_called (s : Signal) :
    (onSignal initialSettle s).called = true := by
  cases s <;> rfl

lemma settleAll_cons (s : Signal) (rest : List Signal) :
    settleAll (s :: rest) = onSignal initialSettle s := by
  unfold settleAll
  rw [List.foldl_cons]
  exact foldl_onSignal_called rest _ (onSignal_initial_called s)

lemma settleAll_count_le_one (sigs : List Signal) :
    (settleAll sigs).settledCount ≤ 1 := by
  cases sigs with
  | nil => decide
  | cons s rest =>
    rw [settleAll_cons]
    cases s <;> simp [onSignal, initialSettle]

/-! ### Helper lemmas about wiring and the event traces -/

lemma chainPipes_append_last (l : List Stage) (sk : Stage) :
    chainPipes (l ++ [sk]) =
      chainPipes l ++ l.getLast?.elim [] (fun t => [RunEvent.pipe t sk]) := by
  induction l with
  | nil => rfl
  | cons a l ih =>
    cases l with
    | nil => rfl
    | cons b r =>
      have : (a :: b :: r) ++ [sk] = a :: ((b :: r) ++ [sk]) := rfl
      rw [this]
      show RunEvent.pipe a b :: chainPipes ((b :: r) ++ [sk]) = _
      rw [ih]
      rfl

lemma wireEvents_eq_chain (p : Pipeline) :
    wireEvents p = chainPipes (presentStages p) := by
  rcases p with ⟨src, trs, snk⟩
  unfold wireEvents presentStages
  rcases src with _ | s <;> rcases snk with _ | sk <;>
    rcases hts : trs.getD [] with _ | ⟨t, rest⟩ <;>
    simp only [hts, Option.toList] <;>
    simp [chainPipes, chainPipes_append_last, List.getLast?_eq_none_iff]
  · cases h : (t :: rest).getLast? with
    | none => simp [List.getLast?_eq_none_iff] at h
    | some last =>
      have hc := chainPipes_append_last (t :: rest) sk
      simp [h] at hc
      simp [h]
      exact hc.symm
  · cases h : (t :: rest).getLast? with
    | none => simp [List.getLast?_eq_none_iff] at h
    | some last =>
      have hc := chainPipes_append_last (t :: rest) sk
      simp [h] at hc
      simp [h]
      exact hc.symm

lemma mem_chainPipes_pipe (e : RunEvent) (l : List Stage) (h : e ∈ chainPipes l) :
    ∃ a b, e = RunEvent.pipe a b := by
  induction l with
  | nil => cases h
  | cons a l ih =>
    cases l with
    | nil => cases h
    | cons b r =>
      rcases List.mem_cons.mp h with he | hh
      · exact ⟨a, b, he⟩
      · exact ih hh

lemma mem_wireEvents_pipe (p : Pipeline) (e : RunEvent) (h : e ∈ wireEvents p) :
    ∃ a b, e = RunEvent.pipe a b := by
  rw [wireEvents_eq_chain] at h
  exact mem_chainPipes_pipe e _ h

lemma pipe_not_mem_tailEvents (p : Pipeline) (o : Option Outcome) (a b : Stage) :
    RunEvent.pipe a b ∉ tailEvents p o := by
  unfold tailEvents
  rcases finalStream p with _ | t <;> rcases o with _ | (_ | e) <;> simp

lemma setupCall_mem_tailEvents (p : Pipeline) (o : Option Outcome) :
    RunEvent.setupCall ∈ tailEvents p o := by
  unfold tailEvents
  rcases finalStream p with _ | t <;> simp

lemma teardown_not_mem_wireEvents (p : Pipeline) :
    RunEvent.teardownCall ∉ wireEvents p := by
  intro h
  rcases mem_wireEvents_pipe p _ h with ⟨a, b, hab⟩
  cases hab

lemma teardown_count_tailEvents (p : Pipeline) (o : Option Outcome) :
    (tailEvents p o).count RunEvent.teardownCall =
      if o = some Outcome.resolved then 1 else 0 := by
  unfold tailEvents
  rcases finalStream p with _ | t <;> rcases o with _ | (_ | e) <;>
    simp [List.count_cons, List.count_append]

lemma runPipesModel_trace (p : Pipeline) (sr : Except Nat Unit) (tf ff : Bool) :
    (runPipesModel p sr tf ff).trace =
      wireEvents p ++ tailEvents p (runOutcome p sr tf ff) := rfl

lemma runPipesModel_result_ok_iff (p : Pipeline) (sr : Except Nat Unit)
    (tf ff : Bool) :
    (runPipesModel p sr tf ff).result = some (Except.ok ()) ↔
      runOutcome p sr tf ff = some Outcome.resolved := by
  unfold runPipesModel
  rcases runOutcome p sr tf ff with _ | (_ | e) <;> simp

lemma teardown_mem_trace_iff (p : Pipeline) (sr : Except Nat Unit) (tf ff : Bool) :
    RunEvent.teardownCall ∈ (runPipesModel p sr tf ff).trace ↔
      runOutcome p sr tf ff = some Outcome.resolved := by
  rw [runPipesModel_trace, List.mem_append]
  constructor
  · rintro (h | h)
    · exact absurd h (teardown_not_mem_wireEvents p)
    · by_contra hne
      have hz : (tailEvents p (runOutcome p sr tf ff)).count RunEvent.teardownCall = 0 := by
        rw [teardown_count_tailEvents, if_neg hne]
      exact List.count_eq_zero.mp hz h
  · intro h
    refine Or.inr ?_
    have hone : (tailEvents p (runOutcome p sr tf ff)).count RunEvent.teardownCall = 1 := by
      rw [teardown_count_tailEvents, if_pos h]
    exact List.count_pos_iff.mp (by omega)

/-- C1 (amended): teardown is called, exactly once and with the run's
config, args, context and pipeline, only when the run settles successfully;
when the run settles with an error — in particular when the setup hook
throws and its rejection wins the settlement — the `await` on the promise
rethrows on the line before the teardown call, so teardown is never
executed and the error propagates to `runScript`'s catch. -/
theorem runPipes_teardown_only_on_success (p : Pipeline) (sr : Except Nat Unit)
    (tf ff : Bool) :
    ((runPipesModel p sr tf ff).result = some (Except.ok ()) →
      (runPipesModel p sr tf ff).trace.count RunEvent.teardownCall = 1) ∧
    (∀ e, (runPipesModel p sr tf ff).result = some (Except.error e) →
      RunEvent.teardownCall ∉ (runPipesModel p sr tf ff).trace) ∧
    ((runPipesModel p sr tf ff).result = none →
      RunEvent.teardownCall ∉ (runPipesModel p sr tf ff).trace) := by
  have hw : (wireEvents p).count RunEvent.teardownCall = 0 :=
    List.count_eq_zero.mpr (teardown_not_mem_wireEvents p)
  refine ⟨?_, ?_, ?_⟩
  · intro h
    have ho := (runPipesModel_result_ok_iff p sr tf ff).mp h
    rw [runPipesModel_trace, List.count_append, hw,
      teardown_count_tailEvents, if_pos ho]
  · intro e h
    rw [teardown_mem_trace_iff]
    intro ho
    rw [(runPipesModel_result_ok_iff p sr tf ff).mpr ho] at h
    simp at h
  · intro h
    rw [teardown_mem_trace_iff]
    intro ho
    rw [(runPipesModel_result_ok_iff p sr tf ff).mpr ho] at h
    simp at h

/-- C1 witness: a full pipeline whose terminal finishes runs teardown
exactly once. -/
theorem runPipes_teardown_only_on_success_witness :
    (runPipesModel ⟨some 1, some [2], some 3⟩ (Except.ok ()) true true).trace.count
      RunEvent.teardownCall = 1 :=
  (runPipes_teardown_only_on_success ⟨some 1, some [2], some 3⟩
    (Except.ok ()) true true).1 (by decide)

/-- C1 counterexample: a sink-only pipeline whose setup hook rejects (and
whose sink never signals finish) settles with the setup error, the error
propagates, and no teardown call appears in the trace — refuting "teardown
is called after the run settles regardless of whether settlement was
success or error". -/
theorem runPipes_teardown_skipped_on_error_cex :
    (runPipesModel ⟨none, none, some 7⟩ (Except.error 3) false false).result =
      some (Except.error 3) ∧
    RunEvent.teardownCall ∉
      (runPipesModel ⟨none, none, some 7⟩ (Except.error 3) false false).trace := by
  decide

/-- C2: the settlement of a `runPipes` run is guarded by the single-use
`called` flag: the first settlement attempt (terminal-finished resolve or
error rejection, whichever the schedule delivers first) fixes the state,
at most one `resolve`/`reject` call is ever made, and every later attempt
leaves the settlement unchanged. -/
theorem runPipes_single_settlement (p : Pipeline) (sr : Except Nat Unit)
    (tf ff : Bool) :
    (settleAll (runSignals p sr tf ff)).settledCount ≤ 1 ∧
    (∀ s rest, runSignals p sr tf ff = s :: rest →
      settleAll (runSignals p sr tf ff) = onSignal initialSettle s) ∧
    (∀ rest, runSignals p sr tf ff = Signal.res :: rest →
      runOutcome p sr tf ff = some Outcome.resolved) ∧
    (∀ e rest, runSignals p sr tf ff = Signal.rej e :: rest →
      runOutcome p sr tf ff = some (Outcome.rejected e)) := by
  refine ⟨settleAll_count_le_one _, ?_, ?_, ?_⟩
  · intro s rest h
    rw [h, settleAll_cons]
  · intro rest h
    unfold runOutcome
    rw [h, settleAll_cons]
    rfl
  · intro e rest h
    unfold runOutcome
    rw [h, settleAll_cons]
    rfl

/-- C2 witness: with a terminal stage, a failing setup hook and the finish
signal scheduled first, the run resolves on the finish signal and the
later rejection is ignored. -/
theorem runPipes_single_settlement_witness :
    (settleAll (runSignals ⟨none, none, some 5⟩ (Except.error 4) true true)).settledCount ≤ 1 ∧
    settleAll (runSignals ⟨none, none, some 5⟩ (Except.error 4) true true) =
      onSignal initialSettle Signal.res ∧
    runOutcome ⟨none, none, some 5⟩ (Except.error 4) true true =
      some Outcome.resolved :=
  ⟨(runPipes_single_settlement ⟨none, none, some 5⟩ (Except.error 4) true true).1,
   (runPipes_single_settlement ⟨none, none, some 5⟩ (Except.error 4) true true).2.1
     Signal.res [Signal.rej 4] (by decide),
   (runPipes_single_settlement ⟨none, none, some 5⟩ (Except.error 4) true true).2.2.1
     [Signal.rej 4] (by decide)⟩

lemma runOutcome_noTerminal (p : Pipeline) (sr : Except Nat Unit) (tf ff : Bool)
    (h : finalStream p = none) : runOutcome p sr tf ff = some Outcome.resolved := by
  unfold runOutcome runSignals
  rw [h]
  rcases sr with e | u <;>
    simp [settleAll, List.foldl, onSignal, initialSettle]

/-- C3 (amended): the terminal stage is the sink if present, else the last
transform if any transforms exist, else there is none — the source is never
chosen as terminal (`finalStream` has type `Writable|undefined` and is only
assigned from the transforms array or the sink); the completion watcher is
registered on the terminal stage, and with no terminal stage (the empty
pipeline, but also a source-only pipeline) completion is signaled
immediately and the run resolves. -/
theorem runPipes_terminal_stage (p : Pipeline) (sr : Except Nat Unit) (tf ff : Bool) :
    (∀ sk, p.sink = some sk → finalStream p = some sk) ∧
    (p.sink = none → finalStream p = (p.transforms.getD []).getLast?) ∧
    (∀ t, finalStream p = some t →
      RunEvent.watch t ∈ (runPipesModel p sr tf ff).trace) ∧
    (finalStream p = none →
      RunEvent.resolveNow ∈ (runPipesModel p sr tf ff).trace ∧
      (runPipesModel p sr tf ff).result = some (Except.ok ())) := by
  refine ⟨?_, ?_, ?_, ?_⟩
  · intro sk h
    unfold finalStream
    rw [h]
  · intro h
    unfold finalStream
    rw [h]
  · intro t h
    rw [runPipesModel_trace, List.mem_append]
    refine Or.inr ?_
    unfold tailEvents
    rw [h]
    simp
  · intro h
    constructor
    · rw [runPipesModel_trace, List.mem_append]
      refine Or.inr ?_
      unfold tailEvents
      rw [h]
      simp
    · exact (runPipesModel_result_ok_iff p sr tf ff).mpr
        (runOutcome_noTerminal p sr tf ff h)

/-- C3 witness: with a transform and a sink, the watcher is registered on
the sink. -/
theorem runPipes_terminal_stage_witness :
    RunEvent.watch 3 ∈
      (runPipesModel ⟨none, some [2], some 3⟩ (Except.ok ()) true true).trace :=
  (runPipes_terminal_stage ⟨none, some [2], some 3⟩ (Except.ok ()) true true).2.2.1
    3 (by decide)

/-- C3 counterexample: for a source-only pipeline the claimed terminal
(the source, per the spec's fallback chain) differs from the code's: the
code computes no terminal, registers no watcher, and resolves immediately. -/
theorem runPipes_terminal_ignores_source_cex :
    specTerminal ⟨some 1, none, none⟩ = some 1 ∧
    finalStream ⟨some 1, none, none⟩ = none ∧
    (runPipesModel ⟨some 1, none, none⟩ (Except.ok ()) false false).trace =
      [RunEvent.resolveNow, RunEvent.setupCall, RunEvent.teardownCall] := by
  decide

/-- C4 (amended): a sink-only pipeline makes no pipe calls, but it does not
complete immediately: the completion watcher is registered on the sink and
the run settles only when the sink signals finish; teardown then runs after
that successful settlement. -/
theorem runPipes_sink_only (sk : Stage) (sr : Except Nat Unit) (tf ff : Bool) :
    (∀ a b, RunEvent.pipe a b ∉
      (runPipesModel ⟨none, none, some sk⟩ sr tf ff).trace) ∧
    RunEvent.watch sk ∈ (runPipesModel ⟨none, none, some sk⟩ sr tf ff).trace ∧
    (sr = Except.ok () → tf = true →
      (runPipesModel ⟨none, none, some sk⟩ sr tf ff).result =
        some (Except.ok ()) ∧
      RunEvent.teardownCall ∈
        (runPipesModel ⟨none, none, some sk⟩ sr tf ff).trace) := by
  have hw : wireEvents ⟨none, none, some sk⟩ = [] := rfl
  have hf : finalStream ⟨none, none, some sk⟩ = some sk := rfl
  refine ⟨?_, ?_, ?_⟩
  · intro a b
    rw [runPipesModel_trace, hw, List.nil_append]
    exact pipe_not_mem_tailEvents _ _ a b
  · rw [runPipesModel_trace, List.mem_append]
    refine Or.inr ?_
    unfold tailEvents
    rw [hf]
    simp
  · rintro rfl rfl
    have ho : runOutcome ⟨none, none, some sk⟩ (Except.ok ()) true ff =
        some Outcome.resolved := by
      unfold runOutcome runSignals
      rw [hf]
      simp [settleAll, List.foldl, onSignal, initialSettle]
    exact ⟨(runPipesModel_result_ok_iff _ _ _ _).mpr ho,
      (teardown_mem_trace_iff _ _ _ _).mpr ho⟩

/-- C4 witness: a sink-only pipeline whose sink eventually finishes
resolves and then runs teardown. -/
theorem runPipes_sink_only_witness :
    (runPipesModel ⟨none, none, some 5⟩ (Except.ok ()) true false).result =
      some (Except.ok ()) ∧
    RunEvent.teardownCall ∈
      (runPipesModel ⟨none, none, some 5⟩ (Except.ok ()) true false).trace :=
  (runPipes_sink_only 5 (Except.ok ()) true false).2.2 rfl rfl

/-- C4 counterexample: a sink-only pipeline whose sink never signals finish
never settles — the run does not "complete immediately": the trace shows
the watcher registered on the sink, and neither completion nor teardown
ever happens. -/
theorem runPipes_sink_only_not_immediate_cex :
    (runPipesModel ⟨none, none, some 5⟩ (Except.ok ()) false false).result = none ∧
    (runPipesModel ⟨none, none, some 5⟩ (Except.ok ()) false false).trace =
      [RunEvent.watch 5, RunEvent.setupCall] := by
  decide

/-- C7: the stage wiring is exactly one `.pipe` call per adjacent pair of
present stages (in `[source, ...transforms, sink]` order with absent ends
skipped), and every wiring event strictly precedes the `setup` call in the
run's trace: the data-flow graph is complete before the setup hook runs. -/
theorem runPipes_wiring_before_setup (p : Pipeline) (sr : Except Nat Unit)
    (tf ff : Bool) :
    wireEvents p = chainPipes (presentStages p) ∧
    (∀ (i j : Nat) (a b : Stage),
      (runPipesModel p sr tf ff).trace[i]? = some (RunEvent.pipe a b) →
      (runPipesModel p sr tf ff).trace[j]? = some RunEvent.setupCall →
      i < j) := by
  refine ⟨wireEvents_eq_chain p, ?_⟩
  intro i j a b hi hj
  rw [runPipesModel_trace] at hi hj
  by_cases hjW : j < (wireEvents p).length
  · rw [List.getElem?_append_left hjW] at hj
    rcases mem_wireEvents_pipe p _ (List.getElem?_mem hj) with ⟨x, y, hxy⟩
    cases hxy
  · push_neg at hjW
    by_cases hiW : i < (wireEvents p).length
    · omega
    · push_neg at hiW
      rw [List.getElem?_append_right hiW] at hi
      exact absurd (List.getElem?_mem hi) (pipe_not_mem_tailEvents _ _ a b)

/-- C7 witness: in a source–transform–sink pipeline the first trace event
is a pipe call and the setup call appears later. -/
theorem runPipes_wiring_before_setup_witness :
    (runPipesModel ⟨some 1, some [2], some 3⟩ (Except.ok ()) true true).trace[0]? =
        some (RunEvent.pipe 1 2) ∧
    (runPipesModel ⟨some 1, some [2], some 3⟩ (Except.ok ()) true true).trace[3]? =
        some RunEvent.setupCall ∧
    (0 : Nat) < 3 :=
  ⟨by decide, by decide,
   (runPipes_wiring_before_setup ⟨some 1, some [2], some 3⟩ (Except.ok ()) true
     true).2 0 3 1 2 (by decide) (by decide)⟩

lemma runScriptModel_valid_fail (stage : String) (dryRunOpt : Option String)
    (argv : List String) (validator : List String → Bool → Option String)
    (hmem : stage ∈ validStages) (hne : stage ≠ "")
    (htv : truthy (validator argv (parseDryRun dryRunOpt)) = true) :
    runScriptModel (some stage) dryRunOpt argv validator =
      ⟨(awsProfileFor stage).elim [] (fun pr => [ScriptEvent.setAwsProfile pr]) ++
        [ScriptEvent.callValidator, ScriptEvent.printUsage],
       ScriptResult.returnedEarly⟩ := by
  unfold runScriptModel
  simp [stageFalsy, hne, hmem, htv]

lemma runScriptModel_valid_pass (stage : String) (dryRunOpt : Option String)
    (argv : List String) (validator : List String → Bool → Option String)
    (hmem : stage ∈ validStages) (hne : stage ≠ "")
    (htv : truthy (validator argv (parseDryRun dryRunOpt)) = false) :
    runScriptModel (some stage) dryRunOpt argv validator =
      ⟨(awsProfileFor stage).elim [] (fun pr => [ScriptEvent.setAwsProfile pr]) ++
        [ScriptEvent.callValidator, ScriptEvent.constructConfig,
         ScriptEvent.callScript],
       ScriptResult.ranScript stage (parseDryRun dryRunOpt)⟩ := by
  unfold runScriptModel
  simp [stageFalsy, hne, hmem, htv]

/-- C5 (amended): a missing (falsy) stage prints usage to standard error
and aborts with a plain return before any Config is constructed, and so
does a truthy message from the custom argument validator; but a present
stage outside `{int, staging, prod}` is aborted with a thrown
`Invalid stage ...` `Error` — no usage message and no plain return —
though still before any Config construction or DataSource initialization. -/
theorem runScript_abort_paths (stageOpt dryRunOpt : Option String)
    (argv : List String) (validator : List String → Bool → Option String) :
    (stageFalsy stageOpt = true →
      runScriptModel stageOpt dryRunOpt argv validator =
        ⟨[ScriptEvent.printUsage], ScriptResult.returnedEarly⟩) ∧
    (∀ stage, stageOpt = some stage → stage ∈ validStages →
      truthy (validator argv (parseDryRun dryRunOpt)) = true →
      ScriptEvent.printUsage ∈
        (runScriptModel stageOpt dryRunOpt argv validator).trace ∧
      (runScriptModel stageOpt dryRunOpt argv validator).result =
        ScriptResult.returnedEarly ∧
      ScriptEvent.constructConfig ∉
        (runScriptModel stageOpt dryRunOpt argv validator).trace) ∧
    (∀ stage, stageOpt = some stage → stage ≠ "" → stage ∉ validStages →
      runScriptModel stageOpt dryRunOpt argv validator =
        ⟨[], ScriptResult.threw ("Invalid stage " ++ stage)⟩) := by
  refine ⟨?_, ?_, ?_⟩
  · intro h
    unfold runScriptModel
    rw [if_pos h]
  · rintro stage rfl hmem htv
    have hne : stage ≠ "" := by
      rintro rfl
      simp [validStages] at hmem
    rw [runScriptModel_valid_fail stage dryRunOpt argv validator hmem hne htv]
    refine ⟨by simp, rfl, ?_⟩
    rcases awsProfileFor stage with _ | pr <;> simp
  · rintro stage rfl hne hnm
    unfold runScriptModel
    simp [stageFalsy, hne, hnm]

/-- C5 witness: a call with no `-s` option prints usage and returns. -/
theorem runScript_abort_paths_witness :
    runScriptModel none none [] (fun _ _ => none) =
      ⟨[ScriptEvent.printUsage], ScriptResult.returnedEarly⟩ :=
  (runScript_abort_paths none none [] (fun _ _ => none)).1 rfl

/-- C5 counterexample: the stage `dev` is present but invalid, and the
code throws `Invalid stage dev` without printing any usage message — the
abort is a thrown error, not a plain return. -/
theorem runScript_invalid_stage_throws_cex :
    runScriptModel (some "dev") none [] (fun _ _ => none) =
      ⟨[], ScriptResult.threw "Invalid stage dev"⟩ := by
  decide

/-- C10: for every valid stage the very first observable action of
`runScript` after stage validation is the mutation of the process-wide
`AWS_PROFILE` environment variable — `classy-test` for `int`/`staging`,
`prod-pay` for `prod` — and both the argument validator call and (when
validation passes) the Config construction happen strictly after it. -/
theorem runScript_sets_aws_profile (stageOpt dryRunOpt : Option String)
    (argv : List String) (validator : List String → Bool → Option String)
    (stage : String) (h1 : stageOpt = some stage) (h2 : stage ∈ validStages) :
    ∃ pr rest,
      awsProfileFor stage = some pr ∧
      pr = (if stage = "prod" then "prod-pay" else "classy-test") ∧
      (runScriptModel stageOpt dryRunOpt argv validator).trace =
        ScriptEvent.setAwsProfile pr :: rest ∧
      ScriptEvent.callValidator ∈ rest ∧
      (truthy (validator argv (parseDryRun dryRunOpt)) = false →
        ScriptEvent.constructConfig ∈ rest) := by
  subst h1
  have hne : stage ≠ "" := by
    rintro rfl
    simp [validStages] at h2
  have hpr : ∃ pr, awsProfileFor stage = some pr ∧
      pr = (if stage = "prod" then "prod-pay" else "classy-test") := by
    simp only [validStages, List.mem_cons, List.not_mem_nil, or_false] at h2
    rcases h2 with rfl | rfl | rfl
    · exact ⟨"classy-test", by decide, by decide⟩
    · exact ⟨"classy-test", by decide, by decide⟩
    · exact ⟨"prod-pay", by decide, by decide⟩
  rcases hpr with ⟨pr, hpr1, hpr2⟩
  cases htv : truthy (validator argv (parseDryRun dryRunOpt)) with
  | false =>
    refine ⟨pr, [ScriptEvent.callValidator, ScriptEvent.constructConfig,
      ScriptEvent.callScript], hpr1, hpr2, ?_, by simp, fun _ => by simp⟩
    rw [runScriptModel_valid_pass stage dryRunOpt argv validator h2 hne htv,
      hpr1]
    rfl
  | true =>
    refine ⟨pr, [ScriptEvent.callValidator, ScriptEvent.printUsage],
      hpr1, hpr2, ?_, by simp, fun hc => absurd hc (by decide)⟩
    rw [runScriptModel_valid_fail stage dryRunOpt argv validator h2 hne htv,
      hpr1]
    rfl

/-- C10 witness: for stage `prod` the first event sets `AWS_PROFILE` to
`prod-pay`, before validation and Config construction. -/
theorem runScript_sets_aws_profile_witness :
    ∃ pr rest,
      awsProfileFor "prod" = some pr ∧
      pr = (if "prod" = "prod" then "prod-pay" else "classy-test") ∧
      (runScriptModel (some "prod") none [] (fun _ _ => none)).trace =
        ScriptEvent.setAwsProfile pr :: rest ∧
      ScriptEvent.callValidator ∈ rest ∧
      (truthy ((fun _ _ => none : List String → Bool → Option String) []
          (parseDryRun none)) = false →
        ScriptEvent.constructConfig ∈ rest) :=
  runScript_sets_aws_profile (some "prod") none [] (fun _ _ => none) "prod"
    rfl (by decide)

/-- C6 (amended): `LocalDBFactories.get` never throws: for every key other
than `stayClassyDB` it is a pure, stable lookup returning `undefined` as
its absent signal (repeated calls return the same value and leave the pool
state untouched); but for `stayClassyDB` each call invokes
`mysql.createPool` and constructs a fresh connection pool, so two
successive calls with that same key return distinct pool objects. -/
theorem localDBGet_fresh_pool (st : LocalDBState) (w : PoolWorld) (key : String) :
    (key ≠ "stayClassyDB" →
      localDBGet st w key = (JSValue.vUndefined, w) ∧
      (localDBGet st w key).1 =
        (localDBGet st (localDBGet st w key).2 key).1) ∧
    (key = "stayClassyDB" →
      (localDBGet st w key).2.poolsCreated = w.poolsCreated + 1 ∧
      (localDBGet st w key).1 ≠
        (localDBGet st (localDBGet st w key).2 key).1) := by
  constructor
  · intro h
    simp [localDBGet, h]
  · rintro rfl
    simp [localDBGet]

/-- C6 witness: an unknown key is answered with `undefined`, stably and
without touching the pool state. -/
theorem localDBGet_fresh_pool_witness :
    localDBGet ⟨some 9306, JSValue.vStr "u", JSValue.vStr "p"⟩ ⟨0⟩ "foo" =
      (JSValue.vUndefined, ⟨0⟩) :=
  ((localDBGet_fresh_pool ⟨some 9306, JSValue.vStr "u", JSValue.vStr "p"⟩ ⟨0⟩
    "foo").1 (by decide)).1

/-- C6 counterexample: two successive `get('stayClassyDB')` calls on the
same initialized instance return different pool objects — the result is
not stable across repeated calls with the same key. -/
theorem localDBGet_not_stable_cex :
    (localDBGet ⟨some 9306, JSValue.vStr "u", JSValue.vStr "p"⟩ ⟨0⟩
      "stayClassyDB").1 ≠
    (localDBGet ⟨some 9306, JSValue.vStr "u", JSValue.vStr "p"⟩
      ((localDBGet ⟨some 9306, JSValue.vStr "u", JSValue.vStr "p"⟩ ⟨0⟩
        "stayClassyDB").2) "stayClassyDB").1 := by
  decide

/-- C8: `LocalDBFactories`' initialization throws `No port for stage ...`
for every stage other than `prod` and `staging` — in particular for `int`,
which `runScript` accepts as a valid stage, so a Config built for stage
`int` can never complete this source's initialization; `prod` yields port
9306 and `staging` yields port 8306. -/
theorem localDBInitDB_ports (stage : String) (u pw : JSValue) :
    (stage ≠ "prod" → stage ≠ "staging" →
      localDBInitDB stage u pw =
        Except.error ("No port for stage " ++ stage)) ∧
    localDBInitDB "prod" u pw = Except.ok ⟨some 9306, u, pw⟩ ∧
    localDBInitDB "staging" u pw = Except.ok ⟨some 8306, u, pw⟩ ∧
    "int" ∈ validStages ∧
    localDBInitDB "int" u pw = Except.error ("No port for stage int") := by
  refine ⟨?_, rfl, rfl, by decide, rfl⟩
  intro h1 h2
  unfold localDBInitDB
  rw [if_neg h1, if_neg h2]

/-- C8 witness: the stage `int` is accepted by `runScript` yet rejected by
this source's initialization. -/
theorem localDBInitDB_ports_witness :
    localDBInitDB "int" JSValue.vNull JSValue.vNull =
      Except.error ("No port for stage int") :=
  (localDBInitDB_ports "int" JSValue.vNull JSValue.vNull).1 (by decide)
    (by decide)

/-- C9: `ScriptEnvironment.get` answers the four reserved keys `stage`,
`dryRun`, `args` and `dir` from CLI-derived state no matter what the merged
environment object contains (environment files can never override them),
and returns `null` — not `undefined` — for every other key absent from the
environment. -/
theorem scriptEnvironmentGet_reserved (stage : String) (dryRun : Bool)
    (argv : List String) (dir : String)
    (environment : List (String × JSValue)) (key : String) :
    scriptEnvironmentGet stage dryRun argv dir environment "stage" =
      JSValue.vStr stage ∧
    scriptEnvironmentGet stage dryRun argv dir environment "dryRun" =
      JSValue.vBool dryRun ∧
    scriptEnvironmentGet stage dryRun argv dir environment "args" =
      JSValue.vList argv ∧
    scriptEnvironmentGet stage dryRun argv dir environment "dir" =
      JSValue.vStr dir ∧
    (key ∉ reservedKeys → environment.lookup key = none →
      scriptEnvironmentGet stage dryRun argv dir environment key =
        JSValue.vNull) := by
  refine ⟨rfl, rfl, rfl, rfl, ?_⟩
  intro hk hl
  have h1 : key ≠ "stage" := fun h => hk (by rw [h]; decide)
  have h2 : key ≠ "dryRun" := fun h => hk (by rw [h]; decide)
  have h3 : key ≠ "args" := fun h => hk (by rw [h]; decide)
  have h4 : key ≠ "dir" := fun h => hk (by rw [h]; decide)
  unfold scriptEnvironmentGet
  rw [if_neg h1, if_neg h2, if_neg h3, if_neg h4, hl]

/-- C9 witness: a key absent from the environment resolves to `null`, and
a `stage` entry in the environment cannot override the CLI stage. -/
theorem scriptEnvironmentGet_reserved_witness :
    scriptEnvironmentGet "prod" true [] "/d"
      [("stage", JSValue.vStr "hacked")] "foo" = JSValue.vNull ∧
    scriptEnvironmentGet "prod" true [] "/d"
      [("stage", JSValue.vStr "hacked")] "stage" = JSValue.vStr "prod" :=
  ⟨(scriptEnvironmentGet_reserved "prod" true [] "/d"
      [("stage", JSValue.vStr "hacked")] "foo").2.2.2.2 (by decide) (by decide),
   (scriptEnvironmentGet_reserved "prod" true [] "/d"
      [("stage", JSValue.vStr "hacked")] "foo").1⟩

end ClassyLambda
